import Mathlib

/-!
# Dev³ decision-deliberation core — shallow embedding

Shallow embedding of the Dev³ decision store (`src/server/storage.ts`,
class `MemStorage`) and the consensus-calculation endpoint
(`src/server/routes.ts`, `POST /api/decisions/:id/consensus` and
`POST /api/decisions/:id/responses`), together with proofs of the spec's
claims about them.

Modelling conventions:
* JavaScript `Map<string, T>` becomes a function `String → Option T`,
  updated pointwise (`mapSet`, `mapErase`).
* The environment-supplied UUID generator and wall clock become explicit
  `String` parameters (`newId`, `now`) threaded into each operation.
* The stored `Decision` record carries only the map-resident fields; the
  `responses`/`consensus` fields that `getDecision` attaches at read time
  are modelled by the read-side view `DecisionView`.
* Closed string enums of the schema become inductive types.
-/

namespace Dev3

/-- Voter identity (`model` field). The closed set of the schema. -/
inductive Model
  | grok
  | chatgpt
  | claude
deriving DecidableEq, Repr

/-- Modelled from the spec: the fixed required-voter list `AI_MODELS` is
declared in `shared/schema.ts`, which is not among the provided sources;
the spec and the repository documentation fix it as the three models
Grok, ChatGPT, Claude. -/
def AI_MODELS : List Model := [.grok, .chatgpt, .claude]

/-- Vote value of a response. -/
inductive Vote
  | approve
  | reject
  | abstain
deriving DecidableEq, Repr

/-- Decision status state machine. -/
inductive Status
  | pending
  | deliberating
  | consensus_reached
  | deadlock
deriving DecidableEq, Repr

/-- Consensus outcome. -/
inductive Outcome
  | approved
  | rejected
  | needs_revision
deriving DecidableEq, Repr

/-- Decision category (informational enum). -/
inductive Category
  | architecture
  | feature
  | refactor
  | security
  | performance
  | dependency
  | other
deriving DecidableEq, Repr

/-- Decision priority (informational enum). -/
inductive Priority
  | low
  | medium
  | high
  | critical
deriving DecidableEq, Repr

/-- `InsertDecision` — payload for decision creation. -/
structure InsertDecision where
  title : String
  description : String
  context : Option String
  category : Category
  priority : Priority
deriving DecidableEq, Repr

/-- Stored `Decision` record (map-resident fields). -/
structure Decision where
  id : String
  title : String
  description : String
  context : Option String
  category : Category
  priority : Priority
  status : Status
  createdAt : String
  updatedAt : String
deriving DecidableEq, Repr

/-- `InsertAIResponse` — payload for response submission. -/
structure InsertAIResponse where
  decisionId : String
  model : Model
  vote : Vote
  reasoning : String
  confidence : Nat
  risks : Option (List String)
  recommendations : Option (List String)
deriving DecidableEq, Repr

/-- Stored `AIResponse` record. -/
structure AIResponse where
  id : String
  decisionId : String
  model : Model
  vote : Vote
  reasoning : String
  confidence : Nat
  risks : Option (List String)
  recommendations : Option (List String)
  createdAt : String
deriving DecidableEq, Repr

/-- The `voteSummary` tally of a consensus. -/
structure VoteSummary where
  approve : Nat
  reject : Nat
  abstain : Nat
deriving DecidableEq, Repr

/-- Stored `Consensus` record. -/
structure Consensus where
  id : String
  decisionId : String
  outcome : Outcome
  unanimity : Bool
  voteSummary : VoteSummary
  synthesizedReasoning : String
  actionItems : Option (List String)
  createdAt : String
deriving DecidableEq, Repr

/-- `Omit<Consensus, "id" | "decisionId" | "createdAt">` — the payload
handed to `setConsensus`. -/
structure ConsensusBody where
  outcome : Outcome
  unanimity : Bool
  voteSummary : VoteSummary
  synthesizedReasoning : String
  actionItems : Option (List String)
deriving DecidableEq, Repr

/-- Completing a `ConsensusBody` with the store-generated identity fields,
as `MemStorage.setConsensus` does. -/
def ConsensusBody.toConsensus (body : ConsensusBody)
    (id decisionId createdAt : String) : Consensus :=
  { outcome := body.outcome
    unanimity := body.unanimity
    voteSummary := body.voteSummary
    synthesizedReasoning := body.synthesizedReasoning
    actionItems := body.actionItems
    id := id
    decisionId := decisionId
    createdAt := createdAt }

/-- Pointwise update of a string-keyed map (`Map.set`). -/
def mapSet {β : Type} (m : String → Option β) (k : String) (v : β) :
    String → Option β :=
  fun k' => if k' = k then some v else m k'

/-- Pointwise removal from a string-keyed map (`Map.delete`). -/
def mapErase {β : Type} (m : String → Option β) (k : String) :
    String → Option β :=
  fun k' => if k' = k then none else m k'

/-- The three maps of `MemStorage`. -/
structure MemStorage where
  decisions : String → Option Decision
  aiResponses : String → Option (List AIResponse)
  consensuses : String → Option Consensus

/-- The freshly constructed store (`new MemStorage()`). -/
def MemStorage.empty : MemStorage :=
  { decisions := fun _ => none
    aiResponses := fun _ => none
    consensuses := fun _ => none }

/-- Read-side view a `getDecision` returns: the record with its current
response list and current-or-absent consensus attached. -/
structure DecisionView where
  decision : Decision
  responses : List AIResponse
  consensus : Option Consensus
deriving DecidableEq, Repr

/-- `MemStorage.createDecision`. -/
def createDecision (s : MemStorage) (ins : InsertDecision)
    (newId now : String) : MemStorage × Decision :=
  let d : Decision :=
    { id := newId
      title := ins.title
      description := ins.description
      context := ins.context
      category := ins.category
      priority := ins.priority
      status := .pending
      createdAt := now
      updatedAt := now }
  ({ s with
      decisions := mapSet s.decisions newId d
      aiResponses := mapSet s.aiResponses newId [] }, d)

/-- `MemStorage.getDecision`. -/
def getDecision (s : MemStorage) (id : String) : Option DecisionView :=
  match s.decisions id with
  | none => none
  | some d =>
      some { decision := d
             responses := (s.aiResponses id).getD []
             consensus := s.consensuses id }

/-- `MemStorage.getAIResponses` (`this.aiResponses.get(id) || []`). -/
def getAIResponses (s : MemStorage) (id : String) : List AIResponse :=
  (s.aiResponses id).getD []

/-- `MemStorage.getConsensus`. -/
def getConsensus (s : MemStorage) (id : String) : Option Consensus :=
  s.consensuses id

/-- `MemStorage.deleteDecision`. -/
def deleteDecision (s : MemStorage) (id : String) : MemStorage × Bool :=
  let existed := (s.decisions id).isSome
  ({ decisions := mapErase s.decisions id
     aiResponses := mapErase s.aiResponses id
     consensuses := mapErase s.consensuses id }, existed)

/-- JavaScript `Array.prototype.findIndex`: index of the first element
satisfying the predicate. -/
def findIndex {α : Type} (p : α → Bool) : List α → Option Nat
  | [] => none
  | x :: xs => if p x then some 0 else (findIndex p xs).map (· + 1)

/-- The `AIResponse` built by `addAIResponse` from the inserted payload
and the generated id and timestamp. -/
def mkAIResponse (ins : InsertAIResponse) (newId now : String) : AIResponse :=
  { id := newId
    decisionId := ins.decisionId
    model := ins.model
    vote := ins.vote
    reasoning := ins.reasoning
    confidence := ins.confidence
    risks := ins.risks
    recommendations := ins.recommendations
    createdAt := now }

/-- `AI_MODELS.every(model => responses.some(r => r.model === model))` —
the completeness test used by both `addAIResponse` and the consensus
route. -/
def allResponded (responses : List AIResponse) : Bool :=
  AI_MODELS.all (fun m => responses.any (fun r => r.model == m))

/-- The replace-or-append block of `addAIResponse`: overwrite the slot
of the first same-model response if one exists (`findIndex` +
assignment), otherwise push at the end. -/
def replaceOrAppend (responses : List AIResponse) (response : AIResponse) :
    List AIResponse :=
  match findIndex (fun r => r.model == response.model) responses with
  | some i => responses.set i response
  | none => responses ++ [response]

/-- `MemStorage.addAIResponse`: replace the same-voter response in place
if present, else append; then, if all models have responded and the
decision is still `pending`, advance it to `deliberating`. -/
def addAIResponse (s : MemStorage) (ins : InsertAIResponse)
    (newId now : String) : MemStorage × AIResponse :=
  let response := mkAIResponse ins newId now
  let responses := (s.aiResponses ins.decisionId).getD []
  let responses' := replaceOrAppend responses response
  let s₁ : MemStorage :=
    { s with aiResponses := mapSet s.aiResponses ins.decisionId responses' }
  let s₂ : MemStorage :=
    match s₁.decisions ins.decisionId with
    | some d =>
        if allResponded responses' && (d.status == .pending) then
          { s₁ with
              decisions := mapSet s₁.decisions ins.decisionId
                { d with status := .deliberating, updatedAt := now } }
        else s₁
    | none => s₁
  (s₂, response)

/-- `MemStorage.setConsensus`. -/
def setConsensus (s : MemStorage) (decisionId : String)
    (body : ConsensusBody) (newId now : String) :
    MemStorage × Option Consensus :=
  match s.decisions decisionId with
  | none => (s, none)
  | some d =>
      let consensus := body.toConsensus newId decisionId now
      ({ s with
          consensuses := mapSet s.consensuses decisionId consensus
          decisions := mapSet s.decisions decisionId
            { d with status := .consensus_reached, updatedAt := now } },
       some consensus)

/-! ## Route layer (`src/server/routes.ts`) -/

/-- Error responses of the two modelled write endpoints: `notFound`
(HTTP 404) and the 400 "Cannot reach consensus" precondition failure,
which carries the `responded` and `missing` model lists of the JSON
body. -/
inductive ApiError
  | notFound
  | preconditionFailed (responded : List Model) (missing : List Model)
deriving DecidableEq, Repr

/-- `POST /api/decisions/:id/responses`: 404 when the decision does not
exist, otherwise submit the body (with `decisionId` forced to the path
parameter) through `addAIResponse`. -/
def postResponse (s : MemStorage) (id : String) (body : InsertAIResponse)
    (newId now : String) : MemStorage × Except ApiError AIResponse :=
  match getDecision s id with
  | none => (s, .error .notFound)
  | some _ =>
      let (s', r) := addAIResponse s { body with decisionId := id } newId now
      (s', .ok r)

/-- Display name of a model's role (`AI_MODEL_ROLES[model].name`).
Modelled from the spec: `AI_MODEL_ROLES` is declared in
`shared/schema.ts`, which is not among the provided sources; the
repository documentation names the three roles. -/
def roleName : Model → String
  | .grok => "Grok"
  | .chatgpt => "ChatGPT"
  | .claude => "Claude"

/-- String form of a vote, as interpolated into the narrative. -/
def voteToString : Vote → String
  | .approve => "approve"
  | .reject => "reject"
  | .abstain => "abstain"

/-- The vote tally of the consensus route (`voteSummary`). -/
def computeVoteSummary (responses : List AIResponse) : VoteSummary :=
  { approve := (responses.filter (fun r => r.vote == .approve)).length
    reject := (responses.filter (fun r => r.vote == .reject)).length
    abstain := (responses.filter (fun r => r.vote == .abstain)).length }

/-- The outcome rule of the consensus route: approve majority first,
then reject majority, else `needs_revision`. -/
def computeOutcome (vs : VoteSummary) : Outcome :=
  if vs.approve ≥ 2 then .approved
  else if vs.reject ≥ 2 then .rejected
  else .needs_revision

/-- The unanimity rule of the consensus route:
`voteSummary.approve === 3 || voteSummary.reject === 3`. -/
def computeUnanimity (vs : VoteSummary) : Bool :=
  vs.approve == 3 || vs.reject == 3

/-- `Array.from(new Set(xs))` on strings: JavaScript sets iterate in
insertion order, so this keeps the first occurrence of each element, in
order. -/
def dedupFirstSeen (l : List String) : List String :=
  l.foldl (fun acc x => if x ∈ acc then acc else acc ++ [x]) []

/-- One paragraph of the synthesized narrative:
`` `${AI_MODEL_ROLES[r.model].name} (${r.vote}, ${r.confidence}% confidence): ${r.reasoning}` ``. -/
def narrativeLine (r : AIResponse) : String :=
  roleName r.model ++ " (" ++ voteToString r.vote ++ ", " ++
    toString r.confidence ++ "% confidence): " ++ r.reasoning

/-- `POST /api/decisions/:id/consensus`: check existence, check
completeness (reporting `responded`/`missing` on failure), tally votes,
determine outcome and unanimity, synthesize the narrative, deduplicate
action items, and persist through `setConsensus`. `cid`/`cnow` are the
fresh id and timestamp `setConsensus` generates. -/
def calcConsensus (s : MemStorage) (id : String) (cid cnow : String) :
    MemStorage × Except ApiError Consensus :=
  match getDecision s id with
  | none => (s, .error .notFound)
  | some _ =>
      let responses := getAIResponses s id
      if !allResponded responses then
        (s, .error (.preconditionFailed
          (responses.map (fun r => r.model))
          (AI_MODELS.filter (fun m => !(responses.any (fun r => r.model == m))))))
      else
        let voteSummary := computeVoteSummary responses
        let outcome := computeOutcome voteSummary
        let unanimity := computeUnanimity voteSummary
        let synthesizedReasoning :=
          String.intercalate "\n\n" (responses.map narrativeLine)
        let uniqueActionItems :=
          dedupFirstSeen (responses.flatMap (fun r => r.recommendations.getD []))
        let body : ConsensusBody :=
          { outcome := outcome
            unanimity := unanimity
            voteSummary := voteSummary
            synthesizedReasoning := synthesizedReasoning
            actionItems :=
              if uniqueActionItems.length > 0 then some uniqueActionItems
              else none }
        match setConsensus s id body cid cnow with
        | (s', some c) => (s', .ok c)
        | (s', none) => (s', .error .notFound)

/-- A sequence of `submitResponse` operations, each with its generated
id and timestamp. -/
structure SubmitOp where
  ins : InsertAIResponse
  newId : String
  now : String
deriving DecidableEq, Repr

/-- Folding a sequence of submissions through the store. -/
def submitMany (s : MemStorage) (ops : List SubmitOp) : MemStorage :=
  ops.foldl (fun s op => (addAIResponse s op.ins op.newId op.now).1) s

/-- The voter identities currently on file for a decision. -/
def votersOf (s : MemStorage) (did : String) : List Model :=
  (getAIResponses s did).map (fun r => r.model)

/-! ## Spec-side definitions

These follow the spec's words, for comparison with the code-derived
definitions above. -/

/-- Spec-side majority threshold: "strictly more than half the required
voter set, rounded up", i.e. `ceil((n+1)/2)`. -/
def specMajorityThreshold (n : Nat) : Nat := (n + 2) / 2

/-- Spec-side completeness: one response per required voter — the voter
identities of the response list are exactly the required voter list, up
to order. -/
def completeSet (responses : List AIResponse) : Prop :=
  List.Perm (responses.map (fun r => r.model)) AI_MODELS

/-- Spec-side unanimity: "every response carries the identical vote
value". -/
def specAllIdenticalVotes (responses : List AIResponse) : Prop :=
  ∀ r ∈ responses, ∀ r' ∈ responses, r.vote = r'.vote

/-- Spec-side deduplication: keep each string's first occurrence, drop
every later duplicate (exact string equality, first-seen order). -/
def specDedupFirst : List String → List String
  | [] => []
  | x :: xs => x :: specDedupFirst (xs.filter (fun y => y != x))
termination_by l => l.length
decreasing_by
  simpa using Nat.lt_succ_of_le (List.length_filter_le _ xs)

/-! ## Concrete fixtures

A small concrete run of the store, used by the witness theorems: one
decision `"d1"`, then the three voters' submissions. -/

/-- Fixture decision payload. -/
def wInsDec : InsertDecision :=
  { title := "t", description := "d", context := none,
    category := .feature, priority := .high }

/-- Fixture response payload for decision `"d1"`. -/
def wIns (m : Model) (v : Vote) (recs : Option (List String)) :
    InsertAIResponse :=
  { decisionId := "d1", model := m, vote := v, reasoning := "because",
    confidence := 80, risks := none, recommendations := recs }

/-- Store after creating decision `"d1"` (status `pending`). -/
def W1 : MemStorage := (createDecision MemStorage.empty wInsDec "d1" "t0").1

/-- Store after Grok's approval. -/
def W2 : MemStorage :=
  (addAIResponse W1 (wIns .grok .approve (some ["a", "b"])) "r1" "t1").1

/-- Store after Grok's and ChatGPT's approvals. -/
def W3 : MemStorage :=
  (addAIResponse W2 (wIns .chatgpt .approve (some ["b", "c"])) "r2" "t2").1

/-- Store after all three voters responded (Claude rejects); the
decision is now `deliberating`. -/
def W4 : MemStorage :=
  (addAIResponse W3 (wIns .claude .reject none) "r3" "t3").1

/-- The consensus record the consensus route computes on `W4`. -/
def W4c : Consensus :=
  { id := "c1"
    decisionId := "d1"
    outcome := .approved
    unanimity := false
    voteSummary := { approve := 2, reject := 1, abstain := 0 }
    synthesizedReasoning :=
      "Grok (approve, 80% confidence): because\n\nChatGPT (approve, 80% confidence): because\n\nClaude (reject, 80% confidence): because"
    actionItems := some ["a", "b", "c"]
    createdAt := "t4" }

/-- The decision record created in `W1` (still `pending` in `W3`). -/
def wDec1 : Decision :=
  { id := "d1", title := "t", description := "d", context := none,
    category := .feature, priority := .high, status := .pending,
    createdAt := "t0", updatedAt := "t0" }

/-- A consensus body used to exercise `setConsensus` directly. -/
def W2body : ConsensusBody :=
  { outcome := .needs_revision
    unanimity := false
    voteSummary := { approve := 1, reject := 0, abstain := 0 }
    synthesizedReasoning := "one voter only"
    actionItems := none }

/-- Store after Claude resubmits with an approval: all three voters
approve. -/
def W5 : MemStorage :=
  (addAIResponse W4 (wIns .claude .approve none) "r4" "t5").1

/-- The consensus record the consensus route computes on `W5`
(unanimous approval). -/
def W5c : Consensus :=
  { id := "c2"
    decisionId := "d1"
    outcome := .approved
    unanimity := true
    voteSummary := { approve := 3, reject := 0, abstain := 0 }
    synthesizedReasoning :=
      "Grok (approve, 80% confidence): because\n\nChatGPT (approve, 80% confidence): because\n\nClaude (approve, 80% confidence): because"
    actionItems := some ["a", "b", "c"]
    createdAt := "t6" }

/-- A complete all-abstain response set for decision `"d1"`. -/
def abstainResponses : List AIResponse :=
  [{ id := "r1", decisionId := "d1", model := .grok, vote := .abstain,
     reasoning := "x", confidence := 50, risks := none,
     recommendations := none, createdAt := "t1" },
   { id := "r2", decisionId := "d1", model := .chatgpt, vote := .abstain,
     reasoning := "y", confidence := 50, risks := none,
     recommendations := none, createdAt := "t2" },
   { id := "r3", decisionId := "d1", model := .claude, vote := .abstain,
     reasoning := "z", confidence := 50, risks := none,
     recommendations := none, createdAt := "t3" }]

/-! ## Basic lemmas about the map and list helpers -/

theorem mapSet_self {β : Type} (m : String → Option β) (k : String) (v : β) :
    mapSet m k v k = some v := by
  simp [mapSet]

theorem mapSet_other {β : Type} (m : String → Option β) (k k' : String)
    (v : β) (h : k' ≠ k) : mapSet m k v k' = m k' := by
  simp [mapSet, h]

theorem mapErase_self {β : Type} (m : String → Option β) (k : String) :
    mapErase m k k = none := by
  simp [mapErase]

theorem findIndex_eq_none_iff {α : Type} (p : α → Bool) (l : List α) :
    findIndex p l = none ↔ ∀ x ∈ l, p x = false := by
  induction l with
  | nil => simp [findIndex]
  | cons x xs ih =>
      by_cases hx : p x = true
      · simp [findIndex, hx]
      · simp only [Bool.not_eq_true] at hx
        simp [findIndex, hx, ih]

theorem findIndex_eq_some {α : Type} {p : α → Bool} {l : List α} {i : Nat}
    (h : findIndex p l = some i) :
    ∃ x, l[i]? = some x ∧ p x = true := by
  induction l generalizing i with
  | nil => simp [findIndex] at h
  | cons y ys ih =>
      by_cases hy : p y = true
      · simp [findIndex, hy] at h
        subst h
        exact ⟨y, by simp, hy⟩
      · simp only [Bool.not_eq_true] at hy
        simp [findIndex, hy] at h
        obtain ⟨j, hj, rfl⟩ := h
        obtain ⟨x, hx, hpx⟩ := ih hj
        exact ⟨x, by simpa using hx, hpx⟩

theorem set_getElem?_eq {α : Type} (l : List α) (i : Nat) (a : α)
    (h : l[i]? = some a) : l.set i a = l := by
  induction l generalizing i with
  | nil => simp at h
  | cons x xs ih =>
      cases i with
      | zero => simp at h; simp [h]
      | succ j => simp at h; simp [ih j h]

theorem getElem?_set_self {α : Type} (l : List α) (i : Nat) (a : α)
    (h : i < l.length) : (l.set i a)[i]? = some a := by
  induction l generalizing i with
  | nil => simp at h
  | cons x xs ih =>
      cases i with
      | zero => simp
      | succ j => simpa using ih j (by simpa using h)

/-! ## Step lemmas for `addAIResponse` -/

theorem addAIResponse_aiResponses (s : MemStorage) (ins : InsertAIResponse)
    (newId now : String) :
    (addAIResponse s ins newId now).1.aiResponses =
      mapSet s.aiResponses ins.decisionId
        (replaceOrAppend (getAIResponses s ins.decisionId)
          (mkAIResponse ins newId now)) := by
  unfold addAIResponse
  simp only [getAIResponses]
  split <;> first | rfl | (split <;> rfl)

theorem getAIResponses_addAIResponse (s : MemStorage)
    (ins : InsertAIResponse) (newId now : String) (did : String) :
    getAIResponses (addAIResponse s ins newId now).1 did =
      if did = ins.decisionId then
        replaceOrAppend (getAIResponses s ins.decisionId)
          (mkAIResponse ins newId now)
      else getAIResponses s did := by
  by_cases h : did = ins.decisionId
  · subst h
    simp [getAIResponses, addAIResponse_aiResponses, mapSet]
  · simp [getAIResponses, addAIResponse_aiResponses, mapSet, h]

theorem addAIResponse_decisions (s : MemStorage) (ins : InsertAIResponse)
    (newId now : String) :
    (addAIResponse s ins newId now).1.decisions =
      match s.decisions ins.decisionId with
      | some d =>
          if allResponded (replaceOrAppend (getAIResponses s ins.decisionId)
                (mkAIResponse ins newId now)) && (d.status == .pending) then
            mapSet s.decisions ins.decisionId
              { d with status := .deliberating, updatedAt := now }
          else s.decisions
      | none => s.decisions := by
  unfold addAIResponse
  simp only [getAIResponses]
  split <;> first | rfl | (split <;> rfl)

theorem addAIResponse_decisions_other (s : MemStorage)
    (ins : InsertAIResponse) (newId now : String) (did : String)
    (h : did ≠ ins.decisionId) :
    (addAIResponse s ins newId now).1.decisions did = s.decisions did := by
  rw [addAIResponse_decisions]
  split
  · split
    · exact mapSet_other _ _ _ _ h
    · rfl
  · rfl

theorem addAIResponse_decisions_self (s : MemStorage)
    (ins : InsertAIResponse) (newId now : String) (d : Decision)
    (hd : s.decisions ins.decisionId = some d) :
    (addAIResponse s ins newId now).1.decisions ins.decisionId =
      some (if allResponded (replaceOrAppend (getAIResponses s ins.decisionId)
              (mkAIResponse ins newId now)) && (d.status == .pending) then
              { d with status := .deliberating, updatedAt := now }
            else d) := by
  rw [addAIResponse_decisions, hd]
  by_cases hb : allResponded (replaceOrAppend (getAIResponses s ins.decisionId)
      (mkAIResponse ins newId now)) && (d.status == .pending)
  · simp only [hb, if_true, mapSet_self]
  · simp only [hb, if_false, Bool.false_eq_true, hd]

theorem addAIResponse_decisions_nonpending (s : MemStorage)
    (ins : InsertAIResponse) (newId now : String) (did : String)
    (d : Decision) (hd : s.decisions did = some d)
    (hs : d.status ≠ .pending) :
    (addAIResponse s ins newId now).1.decisions did = some d := by
  by_cases h : did = ins.decisionId
  · subst h
    rw [addAIResponse_decisions_self s ins newId now d hd]
    have : (d.status == Status.pending) = false := by
      simpa using hs
    simp [this]
  · rw [addAIResponse_decisions_other s ins newId now did h, hd]

/-! ## The one-response-per-voter invariant -/

theorem mem_of_getElem?_some {α : Type} {l : List α} {i : Nat} {a : α}
    (h : l[i]? = some a) : a ∈ l := by
  obtain ⟨hl, rfl⟩ := List.getElem?_eq_some.1 h
  exact List.getElem_mem hl

theorem replaceOrAppend_of_found (l : List AIResponse) (r : AIResponse)
    (i : Nat) (hidx : findIndex (fun x => x.model == r.model) l = some i) :
    replaceOrAppend l r = l.set i r := by
  simp only [replaceOrAppend, hidx]

theorem map_model_replaceOrAppend_found (l : List AIResponse)
    (r : AIResponse) (i : Nat)
    (hidx : findIndex (fun x => x.model == r.model) l = some i) :
    ((replaceOrAppend l r).map (fun x => x.model)) =
      l.map (fun x => x.model) := by
  obtain ⟨x, hx, hpx⟩ := findIndex_eq_some hidx
  have hxm : x.model = r.model := by simpa using hpx
  rw [replaceOrAppend_of_found l r i hidx, List.map_set]
  apply set_getElem?_eq
  rw [List.getElem?_map, hx, Option.map_some', hxm]

theorem nodup_replaceOrAppend (l : List AIResponse) (r : AIResponse)
    (h : (l.map (fun x => x.model)).Nodup) :
    ((replaceOrAppend l r).map (fun x => x.model)).Nodup := by
  cases hidx : findIndex (fun x => x.model == r.model) l with
  | some i => rw [map_model_replaceOrAppend_found l r i hidx]; exact h
  | none =>
      have hnotin : r.model ∉ l.map (fun x => x.model) := by
        rw [findIndex_eq_none_iff] at hidx
        simp only [List.mem_map, not_exists, not_and]
        intro x hxl hxm
        have := hidx x hxl
        simp [hxm] at this
      simp only [replaceOrAppend, hidx, List.map_append, List.map_cons,
        List.map_nil]
      simp [List.nodup_append, h, hnotin]

theorem votersOf_addAIResponse_nodup (s : MemStorage) (did : String)
    (h : (votersOf s did).Nodup) (ins : InsertAIResponse)
    (newId now : String) :
    (votersOf (addAIResponse s ins newId now).1 did).Nodup := by
  unfold votersOf at *
  rw [getAIResponses_addAIResponse]
  by_cases hdid : did = ins.decisionId
  · rw [if_pos hdid]
    subst hdid
    exact nodup_replaceOrAppend _ _ h
  · rw [if_neg hdid]
    exact h

theorem votersOf_submitMany_nodup (s : MemStorage) (did : String)
    (h : (votersOf s did).Nodup) (ops : List SubmitOp) :
    (votersOf (submitMany s ops) did).Nodup := by
  induction ops generalizing s with
  | nil => simpa [submitMany] using h
  | cons op ops ih =>
      have hstep := votersOf_addAIResponse_nodup s did h op.ins op.newId op.now
      have hfold : submitMany s (op :: ops) =
          submitMany (addAIResponse s op.ins op.newId op.now).1 ops := by
        simp [submitMany]
      rw [hfold]
      exact ih _ hstep

/-- C3: within one decision the response list holds at most one response
per voter identity, along any sequence of submissions; and a second
submission from a voter who already has a response on file replaces that
response in place — same positional slot, the second submission's
content and vote, the freshly generated id and timestamp — leaving
exactly one response for that voter. -/
theorem at_most_one_response_per_voter (s : MemStorage) (did : String)
    (ins : InsertAIResponse) (newId now : String) (i : Nat)
    (hnodup : (votersOf s did).Nodup)
    (hdid : ins.decisionId = did)
    (hidx : findIndex (fun r => r.model == ins.model)
      (getAIResponses s did) = some i) :
    (∀ ops, (votersOf (submitMany s ops) did).Nodup) ∧
    getAIResponses (addAIResponse s ins newId now).1 did =
      (getAIResponses s did).set i (mkAIResponse ins newId now) ∧
    (getAIResponses (addAIResponse s ins newId now).1 did)[i]? =
      some (mkAIResponse ins newId now) ∧
    (votersOf (addAIResponse s ins newId now).1 did).count ins.model = 1 := by
  have hidx' : findIndex
      (fun r => r.model == (mkAIResponse ins newId now).model)
      (getAIResponses s did) = some i := hidx
  have hresp : getAIResponses (addAIResponse s ins newId now).1 did =
      replaceOrAppend (getAIResponses s did) (mkAIResponse ins newId now) := by
    rw [getAIResponses_addAIResponse, hdid, if_pos rfl]
  obtain ⟨x, hx, hpx⟩ := findIndex_eq_some hidx
  have hlen : i < (getAIResponses s did).length :=
    (List.getElem?_eq_some.1 hx).1
  have hset : getAIResponses (addAIResponse s ins newId now).1 did =
      (getAIResponses s did).set i (mkAIResponse ins newId now) := by
    rw [hresp, replaceOrAppend_of_found _ _ i hidx']
  refine ⟨fun ops => votersOf_submitMany_nodup s did hnodup ops, hset, ?_, ?_⟩
  · rw [hset]
    exact getElem?_set_self _ i _ hlen
  · have hmapeq : votersOf (addAIResponse s ins newId now).1 did =
        votersOf s did := by
      unfold votersOf
      rw [hresp]
      exact map_model_replaceOrAppend_found _ _ i hidx'
    have hmem : ins.model ∈ votersOf s did := by
      unfold votersOf
      rw [List.mem_map]
      exact ⟨x, mem_of_getElem?_some hx, by simpa using hpx⟩
    rw [hmapeq]
    exact List.count_eq_one_of_mem hnodup hmem

/-- Witness for C3: on the fixture store `W2` (Grok already responded),
Grok resubmits with a different vote; the single Grok slot is replaced
in place. -/
theorem at_most_one_response_per_voter_witness :
    (votersOf W2 "d1").Nodup ∧
    (wIns .grok .reject none).decisionId = "d1" ∧
    findIndex (fun r => r.model == (wIns .grok .reject none).model)
      (getAIResponses W2 "d1") = some 0 ∧
    ((∀ ops, (votersOf (submitMany W2 ops) "d1").Nodup) ∧
     getAIResponses
        (addAIResponse W2 (wIns .grok .reject none) "r9" "t9").1 "d1" =
       (getAIResponses W2 "d1").set 0
         (mkAIResponse (wIns .grok .reject none) "r9" "t9") ∧
     (getAIResponses
        (addAIResponse W2 (wIns .grok .reject none) "r9" "t9").1 "d1")[0]? =
       some (mkAIResponse (wIns .grok .reject none) "r9" "t9") ∧
     (votersOf (addAIResponse W2 (wIns .grok .reject none) "r9" "t9").1
        "d1").count (wIns .grok .reject none).model = 1) :=
  ⟨by decide, rfl, by decide,
   at_most_one_response_per_voter W2 "d1" (wIns .grok .reject none)
     "r9" "t9" 0 (by decide) rfl (by decide)⟩

theorem decisions_submitMany_nonpending (s : MemStorage) (did : String)
    (d : Decision) (hd : s.decisions did = some d)
    (hs : d.status ≠ .pending) (ops : List SubmitOp) :
    (submitMany s ops).decisions did = some d := by
  induction ops generalizing s with
  | nil => simpa [submitMany] using hd
  | cons op ops ih =>
      have hstep :=
        addAIResponse_decisions_nonpending s op.ins op.newId op.now did d hd hs
      have hfold : submitMany s (op :: ops) =
          submitMany (addAIResponse s op.ins op.newId op.now).1 ops := by
        simp [submitMany]
      rw [hfold]
      exact ih _ hstep

/-- C4: a `submitResponse` write advances the decision from `pending`
to `deliberating` exactly when, after the write, every required voter
is represented and the status was `pending` (and then also refreshes
`updatedAt`); and once the decision is `deliberating`, any further
sequence of submissions leaves the stored decision record — status and
`updatedAt` included — untouched, so the transition never reverts or
re-triggers. -/
theorem status_advance_one_way (s : MemStorage) (did : String)
    (d : Decision) (ins : InsertAIResponse) (newId now : String)
    (hd : s.decisions did = some d)
    (hdid : ins.decisionId = did) :
    (addAIResponse s ins newId now).1.decisions did =
      some (if allResponded
              (getAIResponses (addAIResponse s ins newId now).1 did)
              && (d.status == .pending) then
              { d with status := .deliberating, updatedAt := now }
            else d) ∧
    (d.status = .deliberating →
      ∀ ops, (submitMany s ops).decisions did = some d) := by
  constructor
  · subst hdid
    have hresp : getAIResponses (addAIResponse s ins newId now).1
        ins.decisionId =
        replaceOrAppend (getAIResponses s ins.decisionId)
          (mkAIResponse ins newId now) := by
      rw [getAIResponses_addAIResponse, if_pos rfl]
    rw [hresp]
    exact addAIResponse_decisions_self s ins newId now d hd
  · intro hdel ops
    exact decisions_submitMany_nonpending s did d hd (by simp [hdel]) ops

/-- Witness for C4: on the fixture store `W3` (two of three voters on
file, status `pending`), Claude's submission completes the voter set and
flips the decision to `deliberating` with a refreshed timestamp. -/
theorem status_advance_one_way_witness :
    W3.decisions "d1" = some wDec1 ∧
    (wIns .claude .reject none).decisionId = "d1" ∧
    ((addAIResponse W3 (wIns .claude .reject none) "r3" "t3").1.decisions
        "d1" =
      some (if allResponded
              (getAIResponses
                (addAIResponse W3 (wIns .claude .reject none) "r3" "t3").1
                "d1")
              && (wDec1.status == .pending) then
              { wDec1 with status := .deliberating, updatedAt := "t3" }
            else wDec1) ∧
     (wDec1.status = .deliberating →
       ∀ ops, (submitMany W3 ops).decisions "d1" = some wDec1)) :=
  ⟨by decide, rfl,
   status_advance_one_way W3 "d1" wDec1 (wIns .claude .reject none)
     "r3" "t3" (by decide) rfl⟩

/-! ## Vote tallying and the outcome rule -/

theorem voteSummary_sum (l : List AIResponse) :
    (computeVoteSummary l).approve + (computeVoteSummary l).reject +
      (computeVoteSummary l).abstain = l.length := by
  induction l with
  | nil => simp [computeVoteSummary]
  | cons r rs ih =>
      simp only [computeVoteSummary] at ih ⊢
      cases hv : r.vote <;>
        (simp [List.filter_cons, hv, List.length_cons]; omega)

theorem completeSet_length (l : List AIResponse) (hc : completeSet l) :
    l.length = 3 := by
  have h := hc.length_eq
  simpa [AI_MODELS] using h

set_option linter.unnecessarySeqFocus false in
/-- C1: for a complete response set (one response per required voter,
`n = 3` required voters), the outcome is `approved` iff the approve
count reaches the majority threshold `ceil((n+1)/2) = 2`; `rejected`
iff the reject count reaches that threshold (the approve rule having
been evaluated first); and `needs_revision` otherwise, so a tie or a
plurality without majority yields `needs_revision`. -/
theorem consensus_outcome_majority_rule (l : List AIResponse)
    (hc : completeSet l) :
    (computeOutcome (computeVoteSummary l) = .approved ↔
      specMajorityThreshold AI_MODELS.length ≤
        (computeVoteSummary l).approve) ∧
    (computeOutcome (computeVoteSummary l) = .rejected ↔
      specMajorityThreshold AI_MODELS.length ≤
        (computeVoteSummary l).reject) ∧
    (computeOutcome (computeVoteSummary l) = .needs_revision ↔
      (computeVoteSummary l).approve <
        specMajorityThreshold AI_MODELS.length ∧
      (computeVoteSummary l).reject <
        specMajorityThreshold AI_MODELS.length) := by
  have hT : specMajorityThreshold AI_MODELS.length = 2 := by decide
  have hsum := voteSummary_sum l
  rw [completeSet_length l hc] at hsum
  rw [hT]
  unfold computeOutcome
  split_ifs with h1 h2 <;> refine ⟨?_, ?_, ?_⟩ <;> simp_all <;> omega

/-- Witness for C1: the fixture tally (two approvals, one rejection) is
a complete set and yields `approved`. -/
theorem consensus_outcome_majority_rule_witness :
    List.Perm ((getAIResponses W4 "d1").map (fun r => r.model))
      AI_MODELS ∧
    ((computeOutcome (computeVoteSummary (getAIResponses W4 "d1")) =
        .approved ↔
      specMajorityThreshold AI_MODELS.length ≤
        (computeVoteSummary (getAIResponses W4 "d1")).approve) ∧
     (computeOutcome (computeVoteSummary (getAIResponses W4 "d1")) =
        .rejected ↔
      specMajorityThreshold AI_MODELS.length ≤
        (computeVoteSummary (getAIResponses W4 "d1")).reject) ∧
     (computeOutcome (computeVoteSummary (getAIResponses W4 "d1")) =
        .needs_revision ↔
      (computeVoteSummary (getAIResponses W4 "d1")).approve <
        specMajorityThreshold AI_MODELS.length ∧
      (computeVoteSummary (getAIResponses W4 "d1")).reject <
        specMajorityThreshold AI_MODELS.length)) :=
  ⟨by decide, consensus_outcome_majority_rule _
    (show completeSet _ from by unfold completeSet; decide)⟩

/-! ## Unanimity -/

theorem filter_length_eq_iff {α : Type} (p : α → Bool) (l : List α) :
    (l.filter p).length = l.length ↔ ∀ a ∈ l, p a = true := by
  constructor
  · intro h
    have heq := (List.filter_sublist (p := p) l).eq_of_length h
    intro a ha
    have : a ∈ l.filter p := by rw [heq]; exact ha
    exact (List.mem_filter.1 this).2
  · intro h
    rw [List.filter_eq_self.2 h]

/-- C2 counterexample: a complete response set in which every voter
abstains carries one identical vote value throughout, yet the code's
unanimity flag (`approve === 3 || reject === 3`) is `false` — refuting
the claim that unanimity holds iff all vote values are identical. -/
theorem unanimity_all_abstain_counterexample :
    List.Perm ((abstainResponses).map (fun r => r.model)) AI_MODELS ∧
    specAllIdenticalVotes abstainResponses ∧
    computeUnanimity (computeVoteSummary abstainResponses) = false := by
  refine ⟨by decide, ?_, by decide⟩
  intro r hr r' hr'
  fin_cases hr <;> fin_cases hr' <;> rfl

/-- C2 (amended): for a complete response set, the unanimity flag is
true iff every voter approved or every voter rejected; an all-abstain
set, though its votes are identical, has unanimity `false`. -/
theorem unanimity_rule_amended (l : List AIResponse)
    (hc : completeSet l) :
    computeUnanimity (computeVoteSummary l) = true ↔
      ((∀ r ∈ l, r.vote = .approve) ∨ (∀ r ∈ l, r.vote = .reject)) := by
  have hlen := completeSet_length l hc
  have happ : ((computeVoteSummary l).approve = 3 ↔
      ∀ r ∈ l, r.vote = .approve) := by
    unfold computeVoteSummary
    rw [← hlen]
    rw [filter_length_eq_iff]
    simp [beq_iff_eq]
  have hrej : ((computeVoteSummary l).reject = 3 ↔
      ∀ r ∈ l, r.vote = .reject) := by
    unfold computeVoteSummary
    rw [← hlen]
    rw [filter_length_eq_iff]
    simp [beq_iff_eq]
  unfold computeUnanimity
  rw [Bool.or_eq_true, beq_iff_eq, beq_iff_eq, happ, hrej]

/-- Witness for the amended C2: the fixture set with two approvals and
one rejection is complete and not unanimous. -/
theorem unanimity_rule_amended_witness :
    List.Perm ((getAIResponses W4 "d1").map (fun r => r.model))
      AI_MODELS ∧
    (computeUnanimity (computeVoteSummary (getAIResponses W4 "d1")) =
        true ↔
      ((∀ r ∈ getAIResponses W4 "d1", r.vote = .approve) ∨
       (∀ r ∈ getAIResponses W4 "d1", r.vote = .reject))) :=
  ⟨by decide, unanimity_rule_amended _
    (show completeSet _ from by unfold completeSet; decide)⟩

/-! ## Error paths of the store and the routes -/

theorem getDecision_some_decisions (s : MemStorage) (id : String)
    (dv : DecisionView) (h : getDecision s id = some dv) :
    s.decisions id = some dv.decision := by
  unfold getDecision at h
  cases hsd : s.decisions id with
  | none => rw [hsd] at h; simp at h
  | some d =>
      rw [hsd] at h
      simp only [Option.some.injEq] at h
      rw [← h]

/-- C5: a consensus calculation attempted while at least one required
voter has no response on file returns the precondition error, whose
`responded` field lists exactly the voters with a response and whose
`missing` field lists exactly the required voters without one (the
missing voter among them), and it leaves the store — consensus,
status, everything — untouched. -/
theorem consensus_precondition_failure (s : MemStorage)
    (id cid cnow : String) (dv : DecisionView) (m₀ : Model)
    (hd : getDecision s id = some dv)
    (hm : m₀ ∈ AI_MODELS)
    (hmiss : ∀ r ∈ getAIResponses s id, r.model ≠ m₀) :
    calcConsensus s id cid cnow =
      (s, .error (.preconditionFailed
        ((getAIResponses s id).map (fun r => r.model))
        (AI_MODELS.filter
          (fun m => !((getAIResponses s id).any (fun r => r.model == m)))))) ∧
    (∀ m, m ∈ AI_MODELS.filter
        (fun m => !((getAIResponses s id).any (fun r => r.model == m))) ↔
      m ∈ AI_MODELS ∧ ∀ r ∈ getAIResponses s id, r.model ≠ m) ∧
    (∀ m, m ∈ (getAIResponses s id).map (fun r => r.model) ↔
      ∃ r ∈ getAIResponses s id, r.model = m) ∧
    m₀ ∈ AI_MODELS.filter
      (fun m => !((getAIResponses s id).any (fun r => r.model == m))) := by
  have hnot : allResponded (getAIResponses s id) = false := by
    rw [Bool.eq_false_iff]
    intro hall
    rw [allResponded, List.all_eq_true] at hall
    have h₀ := hall m₀ hm
    rw [List.any_eq_true] at h₀
    obtain ⟨r, hr, hrm⟩ := h₀
    exact hmiss r hr (by simpa using hrm)
  refine ⟨?_, ?_, ?_, ?_⟩
  · unfold calcConsensus
    rw [hd]
    simp only [hnot, Bool.not_false, if_true]
  · intro m
    simp [List.mem_filter, List.any_eq_true, beq_iff_eq]
  · intro m
    simp only [List.mem_map]
  · rw [List.mem_filter]
    refine ⟨hm, ?_⟩
    simp only [Bool.not_eq_eq_eq_not, Bool.not_true, List.any_eq_false]
    intro r hr
    simpa using hmiss r hr

/-- Witness for C5: on the fixture store `W3` only Grok and ChatGPT
have responded, so the calculation fails reporting Claude missing and
the store is unchanged. -/
theorem consensus_precondition_failure_witness :
    getDecision W3 "d1" =
      some { decision := wDec1, responses := getAIResponses W3 "d1",
             consensus := none } ∧
    Model.claude ∈ AI_MODELS ∧
    (∀ r ∈ getAIResponses W3 "d1", r.model ≠ .claude) ∧
    (calcConsensus W3 "d1" "c1" "t4" =
      (W3, .error (.preconditionFailed
        ((getAIResponses W3 "d1").map (fun r => r.model))
        (AI_MODELS.filter
          (fun m => !((getAIResponses W3 "d1").any (fun r => r.model == m)))))) ∧
     (∀ m, m ∈ AI_MODELS.filter
        (fun m => !((getAIResponses W3 "d1").any (fun r => r.model == m))) ↔
       m ∈ AI_MODELS ∧ ∀ r ∈ getAIResponses W3 "d1", r.model ≠ m) ∧
     (∀ m, m ∈ (getAIResponses W3 "d1").map (fun r => r.model) ↔
       ∃ r ∈ getAIResponses W3 "d1", r.model = m) ∧
     Model.claude ∈ AI_MODELS.filter
       (fun m => !((getAIResponses W3 "d1").any (fun r => r.model == m)))) :=
  ⟨rfl, by decide, by decide,
   consensus_precondition_failure W3 "d1" "c1" "t4"
     { decision := wDec1, responses := getAIResponses W3 "d1",
       consensus := none }
     .claude rfl (by decide) (by decide)⟩

/-- C6: `setConsensus` on an existing decision stores (or overwrites)
that decision's consensus built from the supplied body with the fresh
id and fresh creation timestamp, returns it, advances the decision's
status to `consensus_reached` unconditionally — no completeness
hypothesis appears — and refreshes the decision's updated timestamp;
on a nonexistent decision id it returns "not found" (`none`) and
leaves the store untouched. -/
theorem setConsensus_spec (s : MemStorage) (did : String)
    (body : ConsensusBody) (nid now : String) :
    (s.decisions did = none → setConsensus s did body nid now = (s, none)) ∧
    (∀ d, s.decisions did = some d →
      (setConsensus s did body nid now).2 =
          some (body.toConsensus nid did now) ∧
      getConsensus (setConsensus s did body nid now).1 did =
          some (body.toConsensus nid did now) ∧
      (setConsensus s did body nid now).1.decisions did =
          some { d with status := .consensus_reached, updatedAt := now }) := by
  constructor
  · intro h
    unfold setConsensus
    rw [h]
  · intro d hd
    unfold setConsensus
    rw [hd]
    exact ⟨rfl, by simp [getConsensus, mapSet_self], by simp [mapSet_self]⟩

/-- Witness for C6: on the fixture store `W2` only one of three voters
has responded, yet `setConsensus` succeeds, overwrites nothing-yet,
stores the consensus with the fresh id and timestamp, and flips the
status to `consensus_reached`. -/
theorem setConsensus_spec_witness :
    W2.decisions "d1" = some wDec1 ∧
    ((setConsensus W2 "d1" W2body "c9" "t9").2 =
        some (W2body.toConsensus "c9" "d1" "t9") ∧
     getConsensus (setConsensus W2 "d1" W2body "c9" "t9").1 "d1" =
        some (W2body.toConsensus "c9" "d1" "t9") ∧
     (setConsensus W2 "d1" W2body "c9" "t9").1.decisions "d1" =
        some { wDec1 with status := .consensus_reached, updatedAt := "t9" }) :=
  ⟨by decide, (setConsensus_spec W2 "d1" W2body "c9" "t9").2 wDec1 (by decide)⟩

/-- C7: the response-submission endpoint requires the referenced
decision to exist: when the path id matches no stored decision it
fails with `notFound` and returns the store unchanged, recording no
response. -/
theorem submitResponse_requires_decision (s : MemStorage) (id : String)
    (body : InsertAIResponse) (newId now : String)
    (h : s.decisions id = none) :
    postResponse s id body newId now = (s, .error .notFound) := by
  unfold postResponse getDecision
  rw [h]

/-- Witness for C7: submitting against an id absent from the empty
store fails with `notFound` and leaves the store as it was. -/
theorem submitResponse_requires_decision_witness :
    MemStorage.empty.decisions "nope" = none ∧
    postResponse MemStorage.empty "nope" (wIns .grok .approve none)
        "r1" "t1" =
      (MemStorage.empty, .error .notFound) :=
  ⟨rfl, submitResponse_requires_decision MemStorage.empty "nope"
    (wIns .grok .approve none) "r1" "t1" rfl⟩

/-- C8: deleting a decision reports whether it existed and cascades:
afterwards `getDecision` and `getConsensus` report not-found and the
response list reads back empty. -/
theorem delete_cascades (s : MemStorage) (id : String) :
    (deleteDecision s id).2 = (s.decisions id).isSome ∧
    getDecision (deleteDecision s id).1 id = none ∧
    getConsensus (deleteDecision s id).1 id = none ∧
    getAIResponses (deleteDecision s id).1 id = [] := by
  refine ⟨rfl, ?_, ?_, ?_⟩ <;>
    simp [deleteDecision, getDecision, getConsensus, getAIResponses,
      mapErase]

/-! ## Action-item deduplication -/

theorem contains_append_singleton (acc : List String) (x a : String) :
    ((acc ++ [x]).contains a) = (acc.contains a || a == x) := by
  induction acc with
  | nil => simp [beq_eq_decide]
  | cons y ys ihy =>
      simp only [List.cons_append, List.contains_cons, ihy, Bool.or_assoc]

theorem foldl_dedup_eq (l acc : List String) :
    l.foldl (fun acc x => if x ∈ acc then acc else acc ++ [x]) acc =
      acc ++ specDedupFirst (l.filter (fun x => !acc.contains x)) := by
  induction l generalizing acc with
  | nil => simp [specDedupFirst]
  | cons x xs ih =>
      by_cases hx : x ∈ acc
      · have hc : (!acc.contains x) = false := by simp [hx]
        simp only [List.foldl_cons, if_pos hx, List.filter_cons, hc,
          Bool.false_eq_true, if_false]
        exact ih acc
      · have hc : (!acc.contains x) = true := by simp [hx]
        simp only [List.foldl_cons, if_neg hx, List.filter_cons, hc, if_true]
        rw [ih (acc ++ [x])]
        simp only [specDedupFirst, List.append_assoc, List.singleton_append]
        congr 2
        rw [List.filter_filter]
        congr 1
        apply List.filter_congr
        intro a _
        simp only [contains_append_singleton, Bool.not_or, bne,
          beq_eq_decide]
        exact Bool.and_comm _ _

theorem dedupFirstSeen_eq_spec (l : List String) :
    dedupFirstSeen l = specDedupFirst l := by
  unfold dedupFirstSeen
  rw [foldl_dedup_eq l []]
  simp

theorem specDedupFirst_sublist (l : List String) :
    (specDedupFirst l).Sublist l := by
  induction l using specDedupFirst.induct with
  | case1 => simp [specDedupFirst]
  | case2 x xs ih =>
      simp only [specDedupFirst]
      exact (ih.trans (List.filter_sublist xs)).cons₂ x

theorem specDedupFirst_mem (l : List String) (a : String) :
    a ∈ specDedupFirst l ↔ a ∈ l := by
  induction l using specDedupFirst.induct with
  | case1 => simp [specDedupFirst]
  | case2 x xs ih =>
      simp only [specDedupFirst, List.mem_cons, ih, List.mem_filter,
        bne_iff_ne]
      by_cases hax : a = x <;> simp [hax]

theorem specDedupFirst_nodup (l : List String) :
    (specDedupFirst l).Nodup := by
  induction l using specDedupFirst.induct with
  | case1 => simp [specDedupFirst]
  | case2 x xs ih =>
      simp only [specDedupFirst, List.nodup_cons]
      refine ⟨?_, ih⟩
      rw [specDedupFirst_mem]
      simp

/-! ## The successful consensus calculation -/

theorem calcConsensus_ok (s : MemStorage) (id cid cnow : String)
    (s' : MemStorage) (c : Consensus)
    (h : calcConsensus s id cid cnow = (s', .ok c)) :
    allResponded (getAIResponses s id) = true ∧
    c = { id := cid
          decisionId := id
          outcome := computeOutcome (computeVoteSummary (getAIResponses s id))
          unanimity :=
            computeUnanimity (computeVoteSummary (getAIResponses s id))
          voteSummary := computeVoteSummary (getAIResponses s id)
          synthesizedReasoning :=
            String.intercalate "\n\n" ((getAIResponses s id).map narrativeLine)
          actionItems :=
            if (dedupFirstSeen ((getAIResponses s id).flatMap
                  (fun r => r.recommendations.getD []))).length > 0 then
              some (dedupFirstSeen ((getAIResponses s id).flatMap
                (fun r => r.recommendations.getD [])))
            else none
          createdAt := cnow } := by
  unfold calcConsensus at h
  cases hgd : getDecision s id with
  | none => rw [hgd] at h; simp at h
  | some dv =>
      rw [hgd] at h
      have hdec : s.decisions id = some dv.decision :=
        getDecision_some_decisions s id dv hgd
      by_cases har : allResponded (getAIResponses s id) = true
      · simp only [har, Bool.not_true, Bool.false_eq_true, if_false] at h
        unfold setConsensus at h
        rw [hdec] at h
        simp only [Prod.mk.injEq, Except.ok.injEq] at h
        exact ⟨har, h.2.symm⟩
      · have har' : allResponded (getAIResponses s id) = false :=
          Bool.eq_false_iff.2 har
        simp only [har', Bool.not_false, if_true, Prod.mk.injEq] at h
        exact absurd h.2 (by simp)

/-- C9: every consensus the calculation endpoint persists carries as
action items the concatenation of the responses' recommendation lists
(absent lists read as empty), deduplicated by exact string equality
keeping each string's first occurrence in order — and when that
deduplicated list is empty the field is absent (`none`) rather than
`[]`. The deduplicated list is duplicate-free, has exactly the members
of the concatenation, and is a sublist of it (first-seen order). -/
theorem action_items_dedup (s : MemStorage) (id cid cnow : String)
    (s' : MemStorage) (c : Consensus)
    (h : calcConsensus s id cid cnow = (s', .ok c)) :
    c.actionItems =
      (if specDedupFirst ((getAIResponses s id).flatMap
            (fun r => r.recommendations.getD [])) = [] then
         none
       else
         some (specDedupFirst ((getAIResponses s id).flatMap
           (fun r => r.recommendations.getD [])))) ∧
    (specDedupFirst ((getAIResponses s id).flatMap
        (fun r => r.recommendations.getD []))).Nodup ∧
    (∀ a, a ∈ specDedupFirst ((getAIResponses s id).flatMap
        (fun r => r.recommendations.getD [])) ↔
      a ∈ (getAIResponses s id).flatMap
        (fun r => r.recommendations.getD [])) ∧
    (specDedupFirst ((getAIResponses s id).flatMap
        (fun r => r.recommendations.getD []))).Sublist
      ((getAIResponses s id).flatMap (fun r => r.recommendations.getD [])) := by
  obtain ⟨-, hc⟩ := calcConsensus_ok s id cid cnow s' c h
  refine ⟨?_, specDedupFirst_nodup _, specDedupFirst_mem _,
    specDedupFirst_sublist _⟩
  rw [hc]
  simp only [dedupFirstSeen_eq_spec]
  cases specDedupFirst ((getAIResponses s id).flatMap
      (fun r => r.recommendations.getD [])) <;> simp

/-- Witness for C9: on the fixture store the three recommendation lists
`["a","b"]`, `["b","c"]`, absent merge to `["a","b","c"]`. -/
theorem action_items_dedup_witness :
    calcConsensus W4 "d1" "c1" "t4" =
      ((calcConsensus W4 "d1" "c1" "t4").1, .ok W4c) ∧
    (W4c.actionItems =
      (if specDedupFirst ((getAIResponses W4 "d1").flatMap
            (fun r => r.recommendations.getD [])) = [] then
         none
       else
         some (specDedupFirst ((getAIResponses W4 "d1").flatMap
           (fun r => r.recommendations.getD [])))) ∧
     (specDedupFirst ((getAIResponses W4 "d1").flatMap
        (fun r => r.recommendations.getD []))).Nodup ∧
     (∀ a, a ∈ specDedupFirst ((getAIResponses W4 "d1").flatMap
        (fun r => r.recommendations.getD [])) ↔
       a ∈ (getAIResponses W4 "d1").flatMap
         (fun r => r.recommendations.getD [])) ∧
     (specDedupFirst ((getAIResponses W4 "d1").flatMap
        (fun r => r.recommendations.getD []))).Sublist
       ((getAIResponses W4 "d1").flatMap
         (fun r => r.recommendations.getD []))) :=
  ⟨rfl, action_items_dedup W4 "d1" "c1" "t4"
    (calcConsensus W4 "d1" "c1" "t4").1 W4c rfl⟩

/-- C10: every consensus the calculation endpoint persists with
unanimity `true` has outcome `approved` or `rejected`, never
`needs_revision`; in particular a complete all-abstain response set is
reported with unanimity `false`. -/
theorem unanimity_implies_decided (s : MemStorage) (id cid cnow : String)
    (s' : MemStorage) (c : Consensus)
    (h : calcConsensus s id cid cnow = (s', .ok c)) :
    (c.unanimity = true →
      c.outcome = .approved ∨ c.outcome = .rejected) ∧
    ((∀ r ∈ getAIResponses s id, r.vote = .abstain) →
      c.unanimity = false) := by
  obtain ⟨-, hc⟩ := calcConsensus_ok s id cid cnow s' c h
  constructor
  · intro hu
    rw [hc] at hu ⊢
    simp only at hu ⊢
    rw [computeUnanimity, Bool.or_eq_true, beq_iff_eq, beq_iff_eq] at hu
    unfold computeOutcome
    split_ifs with h1 h2
    · exact Or.inl rfl
    · exact Or.inr rfl
    · omega
  · intro habst
    rw [hc]
    simp only
    have happ : (getAIResponses s id).filter
        (fun r => r.vote == Vote.approve) = [] := by
      rw [List.filter_eq_nil_iff]
      intro r hr
      simp [habst r hr]
    have hrej : (getAIResponses s id).filter
        (fun r => r.vote == Vote.reject) = [] := by
      rw [List.filter_eq_nil_iff]
      intro r hr
      simp [habst r hr]
    rw [computeUnanimity, computeVoteSummary]
    simp [happ, hrej]

/-- Witness for C10: on the unanimous-approval fixture `W5` the
endpoint reports unanimity `true`, and the outcome is indeed
`approved`. -/
theorem unanimity_implies_decided_witness :
    calcConsensus W5 "d1" "c2" "t6" =
      ((calcConsensus W5 "d1" "c2" "t6").1, .ok W5c) ∧
    ((W5c.unanimity = true →
       W5c.outcome = .approved ∨ W5c.outcome = .rejected) ∧
     ((∀ r ∈ getAIResponses W5 "d1", r.vote = .abstain) →
       W5c.unanimity = false)) :=
  ⟨rfl, unanimity_implies_decided W5 "d1" "c2" "t6"
    (calcConsensus W5 "d1" "c2" "t6").1 W5c rfl⟩

end Dev3
